import Mathlib

/-!
Shallow embedding of the field-extraction core of the
`sahibinden_single_scraper` repository (files `parser.py`, `app.py`,
`offline_listing_parser.py`, `offline_listing_parser_final.py`), together
with theorems settling the specification claims about it.

Strings are modelled as Lean `String` (lists of characters); Python's
truthiness on strings (`a or b`) is modelled by `pyOrS`; Python functions
that can raise are modelled as `Option`-valued functions.
-/

namespace Scraper

/-- Python whitespace class `\s` (the characters relevant to `str.strip`,
`re.sub(r"\s+", " ", ...)` and `\s*` in the patterns of the source). -/
def pyWS (c : Char) : Bool :=
  c = ' ' || c = '\t' || c = '\n' || c = '\r' || c = '\x0b' || c = '\x0c'

/-- Python `a or b` on strings: `b` when `a` is empty (falsy), else `a`. -/
def pyOrS (a b : String) : String := if a = "" then b else a

/-- Drop a literal character-list prefix; `none` when it is not a prefix.
Used to embed literal fragments of the source's regular expressions. -/
def dropPrefixL : List Char → List Char → Option (List Char)
  | [], s => some s
  | _ :: _, [] => none
  | p :: ps, c :: cs => if c = p then dropPrefixL ps cs else none

/-- Python slice `l[a:b]` on a character list. -/
def pySlice (l : List Char) (a b : Nat) : List Char := (l.drop a).take (b - a)

/-- Embeds `re.sub(r"\s+", " ", ...)`: each maximal whitespace run becomes a
single space. The flag records whether the previous character was whitespace. -/
def collapseGo : Bool → List Char → List Char
  | _, [] => []
  | prevWS, c :: r =>
    if pyWS c then
      (if prevWS then collapseGo true r else ' ' :: collapseGo true r)
    else c :: collapseGo false r

/-- Python `str.strip()` on a character list (both ends). -/
def pyStrip (l : List Char) : List Char :=
  ((l.dropWhile pyWS).reverse.dropWhile pyWS).reverse

/-- Embeds `clean_spaces` of `parser.py` (and `app.py`):
`re.sub(r"\s+", " ", s.strip()) if s else ""`. -/
def clean_spaces (s : String) : String :=
  if s = "" then "" else String.mk (collapseGo false (pyStrip s.data))

/-- Embeds the grouped formatting of `format_phone_digits` of `parser.py`
(`app.py` identical): the f-string
`d[0] (d[1:4]) d[4:7] d[7:9] d[9:11]`. -/
def fmtGroup (d : List Char) : String :=
  String.mk (pySlice d 0 1 ++ (" (").data ++ pySlice d 1 4 ++ (") ").data ++
    pySlice d 4 7 ++ (" ").data ++ pySlice d 7 9 ++ (" ").data ++ pySlice d 9 11)

/-- Embeds `format_phone_digits` of `parser.py` lines 56-64 (identical in
`app.py` lines 49-57): empty input gives the sentinel; non-digits are
stripped; a ten-digit string starting `5` gets a leading `0`; an
eleven-plus-digit string starting `0` is formatted in the grouped shape;
otherwise the raw input is returned. -/
def format_phone_digits (digits : String) : String :=
  if digits = "" then "Belirtilmemiş" else
  let d0 := digits.data.filter Char.isDigit
  let d := if d0.length = 10 ∧ d0.head? = some '5' then '0' :: d0 else d0
  if 11 ≤ d.length ∧ d.head? = some '0' then fmtGroup d else digits

/-- The phone canonicalizer as worded by the specification claim: empty
input yields the sentinel; otherwise non-digits are stripped, exactly ten
digits starting `5` get a prepended `0`, eleven-plus digits starting `0`
are formatted `D (DDD) DDD DD DD`, and in every other case the raw input
is returned unmodified. -/
def phone_claim (s : String) : String :=
  if s = "" then "Belirtilmemiş" else
  let d0 := s.data.filter Char.isDigit
  let d := if d0.length = 10 ∧ d0.head? = some '5' then '0' :: d0 else d0
  if 11 ≤ d.length ∧ d.head? = some '0' then fmtGroup d else s

/-- True when `fiyat` (case-insensitively) starts at this position; embeds
the matching position of `re.sub(r"Fiyat.*$", "", raw, flags=re.I)`. -/
def isFiyatAt (s : List Char) : Bool :=
  match dropPrefixL ("fiyat").data (s.map Char.toLower) with
  | some _ => true
  | none => false

/-- Truncate at the first case-insensitive occurrence of `Fiyat`; embeds
`re.sub(r"Fiyat.*$", "", raw, flags=re.I)` of `clean_price` in `parser.py`. -/
def stripFiyatL : List Char → List Char
  | [] => []
  | c :: r => if isFiyatAt (c :: r) then [] else c :: stripFiyatL r

/-- String form of `stripFiyatL`. -/
def stripFiyat (s : String) : String := String.mk (stripFiyatL s.data)

/-- Character class `[\d\.\,]` of the price pattern of `parser.py`. -/
def isNumSep (c : Char) : Bool := c.isDigit || c = '.' || c = ','

/-- Embeds `re.search(r"(\d[\d\.\,]*)\s*(TL|₺)?", raw)` group 1: the
greedy run of digits, dots and commas starting at the first digit. -/
def numRunL : List Char → Option (List Char)
  | [] => none
  | c :: r => if c.isDigit then some (c :: r.takeWhile isNumSep) else numRunL r

/-- Comma-to-dot conversion of `group(1).replace(',', '.')`. -/
def dotC (c : Char) : Char := if c = ',' then '.' else c

/-- Embeds `clean_price` of `parser.py` lines 23-31: sentinel on empty
input, whitespace collapse, truncation at `Fiyat`, extraction of the
leading numeric run, comma-to-dot conversion, `" TL"` appended; sentinel
when no numeric run is found. -/
def clean_price (raw : String) : String :=
  if raw = "" then "Belirtilmemiş" else
  match numRunL (stripFiyat (clean_spaces raw)).data with
  | some g => String.mk (g.map dotC) ++ " TL"
  | none => "Belirtilmemiş"

/-- The price canonicalizer as worded by the specification claim: empty
input yields the sentinel; otherwise whitespace is collapsed, trailing
text from `Fiyat` on is stripped, the leading numeric run is extracted,
commas become dots and `" TL"` is appended; sentinel when no run exists. -/
def price_claim (s : String) : String :=
  if s = "" then "Belirtilmemiş" else
  let t := stripFiyat (clean_spaces s)
  match numRunL t.data with
  | some run => String.mk (run.map dotC) ++ " TL"
  | none => "Belirtilmemiş"

/-- Python dict assignment `attrs[k] = v`: update the value in place when
the key is present, else append the pair. -/
def dinsert : List (String × String) → String → String → List (String × String)
  | [], k, v => [(k, v)]
  | (k', v') :: rest, k, v =>
    if k' = k then (k, v) :: rest else (k', v') :: dinsert rest k v

/-- Python dict lookup `attrs.get(k)`. -/
def dlookup : List (String × String) → String → Option String
  | [], _ => none
  | (k', v') :: rest, k => if k' = k then some v' else dlookup rest k

/-- Embeds `extract_attrs` of `parser.py` lines 33-42 on an abstract
document: `liRows` are the `(strong, span)` text pairs of the
`.classifiedInfoList li` pass (a pair is written only when the label text
is non-empty), `tableRows` the `(th, td)` text pairs of the `table tr`
pass (written unconditionally). Both passes assign into one dict. -/
def extract_attrs (liRows tableRows : List (String × String)) :
    List (String × String) :=
  let m := liRows.foldl
    (fun m p => if p.1 ≠ "" then dinsert m p.1 p.2 else m) []
  tableRows.foldl (fun m p => dinsert m p.1 p.2) m

/-- Value of the textually last row carrying a given label, accumulated
left to right from `acc`. -/
def lastAcc (rows : List (String × String)) (k : String)
    (acc : Option String) : Option String :=
  rows.foldl (fun a p => if p.1 = k then some p.2 else a) acc

/-- The list-item rows that actually write into the dict: those whose
label text is non-empty (the `if k:` guard of the first pass). -/
def keepLabeled : List (String × String) → List (String × String)
  | [] => []
  | p :: r => if p.1 ≠ "" then p :: keepLabeled r else keepLabeled r

/-- Case-insensitive substring test (via ASCII lowercasing), embedding
`re.search(pattern, text, re.I)` for the literal alternation of
`extract_location` in `parser.py`. -/
def containsSub (hay needle : List Char) : Bool :=
  match hay with
  | [] => needle.isEmpty
  | _ :: t =>
    (match dropPrefixL needle hay with
     | some _ => true
     | none => false) || containsSub t needle

/-- Lowercase a string character-wise (ASCII, as in the patterns used). -/
def lowerStr (s : String) : String := String.mk (s.data.map Char.toLower)

/-- Embeds the navigational-token filter
`re.search(r"(Emlak|Satılık|Türkiye|Ana Sayfa|Tüm İlanlar)", text, re.I)`
of `extract_location` in `parser.py`. -/
def matches_nav (t : String) : Bool :=
  (["Emlak", "Satılık", "Türkiye", "Ana Sayfa", "Tüm İlanlar"]).any
    (fun n => containsSub (lowerStr t).data (lowerStr n).data)

/-- Embeds `extract_location` of `parser.py` lines 44-54: explicit
`İl`/`İlçe`/`Mahalle` attribute rows first; when city or district is
still empty, the filtered breadcrumb texts supply the last three tokens;
finally the fixed site-specific defaults fill what is still empty. -/
def extract_location (attrs : List (String × String)) (bc : List String) :
    String × String × String :=
  let city := (dlookup attrs "İl").getD ""
  let district := (dlookup attrs "İlçe").getD ""
  let neighborhood := (dlookup attrs "Mahalle").getD ""
  let trip :=
    if city = "" ∨ district = "" then
      let filt := (bc.filter (fun t => !matches_nav t)).map clean_spaces
      if 3 ≤ filt.length then
        let r := filt.reverse
        ((r.get? 2).getD "", (r.get? 1).getD "", (r.get? 0).getD "")
      else (city, district, neighborhood)
    else (city, district, neighborhood)
  (pyOrS trip.1 "Tekirdağ", pyOrS trip.2.1 "Süleymanpaşa",
    pyOrS trip.2.2 "100. Yıl Mah.")

/-- Literal prefix of the structured-state pattern
`window\.__INITIAL_STATE__\s*=\s*(\{.*?\});`. -/
def stateLit : List Char := ("window.__INITIAL_STATE__").data

/-- Non-greedy body capture of `(\{.*?\});` after the opening brace: the
shortest extent closed by a brace that is immediately followed by a
semicolon (re.S lets `.` cross newlines, hence no character is excluded). -/
def scanBrace : List Char → Option (List Char)
  | [] => none
  | '}' :: ';' :: _ => some ['}']
  | c :: rest => (scanBrace rest).map (fun b => c :: b)

/-- Attempt to match the whole structured-state pattern at this position. -/
def tryAt (s : List Char) : Option (List Char) :=
  match dropPrefixL stateLit s with
  | none => none
  | some r1 =>
    match r1.dropWhile pyWS with
    | '=' :: r2 =>
      (match r2.dropWhile pyWS with
       | '{' :: r3 => (scanBrace r3).map (fun b => '{' :: b)
       | _ => none)
    | _ => none

/-- Leftmost match of the structured-state pattern, as `re.search`. -/
def findStateAux : List Char → Option (List Char)
  | [] => none
  | c :: rest =>
    match tryAt (c :: rest) with
    | some r => some r
    | none => findStateAux rest

/-- Captured object literal of the first structured-state match in one
script block, embedding
`re.search(r"window\.__INITIAL_STATE__\s*=\s*(\{.*?\});", txt, re.S)`. -/
def findState (t : String) : Option String :=
  (findStateAux t.data).map String.mk

/-- Embeds `extract_json_state` of `offline_listing_parser_final.py`
lines 13-24 (identical in `offline_listing_parser.py` lines 34-46).
Scripts are their text contents (absent text is the empty string, the
`if not txt: continue` guard); `parse` stands for `json.loads`, with
`none` in place of the exception that the source swallows; `empty` is
the `{}` returned when no block matches or none parses. -/
def extract_json_state {α : Type} (parse : String → Option α) (empty : α) :
    List String → α
  | [] => empty
  | t :: rest =>
    if t = "" then extract_json_state parse empty rest
    else
      match findState t with
      | some lit =>
        (match parse lit with
         | some j => j
         | none => extract_json_state parse empty rest)
      | none => extract_json_state parse empty rest

/-- Check for end-of-string or `?` after an extension, embedding the
`(\?|$)` tail of the raster-extension pattern. -/
def afterExtOk : List Char → Bool
  | [] => true
  | '?' :: _ => true
  | _ => false

/-- Match one literal extension alternative followed by `(\?|$)`. -/
def tryExt (e : List Char) (s : List Char) : Bool :=
  match dropPrefixL e s with
  | some r => afterExtOk r
  | none => false

/-- Match `\.(jpe?g|png|webp)(\?|$)` at this position. -/
def rasterAt : List Char → Bool
  | '.' :: r =>
    tryExt ("jpg").data r || tryExt ("jpeg").data r ||
      tryExt ("png").data r || tryExt ("webp").data r
  | _ => false

/-- Search `\.(jpe?g|png|webp)(\?|$)` anywhere, as `re.search`. -/
def rasterSearch : List Char → Bool
  | [] => false
  | c :: r => rasterAt (c :: r) || rasterSearch r

/-- Embeds `re.search(r"\.(jpe?g|png|webp)(\?|$)", src.lower())` of
`extract_images` in `parser.py` (same test in `app.py`). -/
def matchesRaster (s : String) : Bool :=
  rasterSearch (s.data.map Char.toLower)

/-- Embeds the per-img source choice and extension filter of
`extract_images` (`parser.py` lines 105-110, `app.py` lines 97-101):
each element carries its optional `data-src` and `src` attributes,
`src = img.get("data-src") or img.get("src") or ""`, kept when the
raster pattern matches. -/
def filteredImgs (elems : List (Option String × Option String)) :
    List String :=
  elems.filterMap (fun e =>
    let src := pyOrS (pyOrS (e.1.getD "") (e.2.getD "")) ""
    if matchesRaster src then some src else none)

/-- First-seen-order deduplication worker (`dict.fromkeys` semantics). -/
def dedupGo (seen : List String) : List String → List String
  | [] => []
  | x :: r => if x ∈ seen then dedupGo seen r else x :: dedupGo (x :: seen) r

/-- Embeds `list(dict.fromkeys(imgs))`. -/
def dedupFirst (l : List String) : List String := dedupGo [] l

/-- The candidate image list of `extract_images` in `parser.py` lines
105-112 (`app.py` lines 97-103): filtered sources, deduplicated in
first-seen order, capped at the first 100. -/
def imgCandidates (elems : List (Option String × Option String)) :
    List String :=
  (dedupFirst (filteredImgs elems)).take 100

/-- First maximal digit run of a string, embedding
`re.search(r"(\d+)", s)` group 1. -/
def firstDigitRun (s : String) : Option String :=
  let rec go : List Char → Option String
    | [] => none
    | c :: r =>
      if c.isDigit then some (String.mk (c :: r.takeWhile Char.isDigit))
      else go r
  go s.data

/-- Embeds the `listing_id` expression of `parse_listing` in `parser.py`
line 132: `re.search(r"(\d+)", html_path.name).group(1)` with no guard,
so a digit-free name makes `re.search` return `None` and `.group(1)`
raise; the raised `AttributeError` is modelled as `none` (no record is
assembled). -/
def listing_id_unguarded (name : String) : Option String := firstDigitRun name

/-- Embeds the guarded `listing_id` expression of `parse_html_to_record`
in `app.py` line 148: the first digit run of the source reference, or the
empty string when the reference has no digits. -/
def listing_id_app (ref : String) : String := (firstDigitRun ref).getD ""

/-- The fields that the structured-state `classifiedDetail`/`classified`
object supplies to record assembly (`""` models an absent/None value, as
Python `.get(..., "")` plus truthiness does). -/
structure Classified where
  title : String
  cityName : String
  townName : String
  quarterName : String
  priceFormatted : String
  description : String
  userName : String
  userPhone : String

/-- The raw texts that the selector/heuristic side supplies to record
assembly: `h1` text, `.classifiedDetailPrice` text, `.classifiedInfo h2`
text, `#classifiedDescription` text, `.userInfo .username` text. -/
structure HeurDoc where
  h1Text : String
  priceText : String
  h2Text : String
  descText : String
  userText : String

/-- The record fields produced by the merge of the two extractors. -/
structure OffRecord where
  title : String
  price : String
  city : String
  district : String
  neighborhood : String
  description : String
  owner : String
  phone : String

/-- Embeds `clean_price` of `offline_listing_parser.py` lines 16-20:
character class `[\d\.\s,]` of its price pattern. -/
def isNumSepV1 (c : Char) : Bool := c.isDigit || c = '.' || c = ',' || pyWS c

/-- True when, after optional whitespace, `TL` follows case-insensitively
(the `\s*TL` tail with `re.I`). -/
def tlAfter (s : List Char) : Bool :=
  match s.dropWhile pyWS with
  | t :: l :: _ => (t = 'T' || t = 't') && (l = 'L' || l = 'l')
  | _ => false

/-- Greedy-with-backtracking body of `(\d[\d\.\s,]*\d)\s*TL`: longest
class-run tail ending in a digit such that `\s*TL` follows; returns the
group tail (everything after the leading digit). -/
def scanV1 : List Char → Option (List Char)
  | [] => none
  | c :: rest =>
    if isNumSepV1 c then
      match scanV1 rest with
      | some g => some (c :: g)
      | none => if c.isDigit && tlAfter rest then some [c] else none
    else none

/-- Leftmost match of `(\d[\d\.\s,]*\d)\s*TL` as `re.search` (group 1
needs at least two characters: a digit, the class run, a digit). -/
def searchPriceV1 : List Char → Option (List Char)
  | [] => none
  | c :: rest =>
    if c.isDigit then
      match scanV1 rest with
      | some g => some (c :: g)
      | none => searchPriceV1 rest
    else searchPriceV1 rest

/-- Python `str.strip` on a string (both ends, whitespace). -/
def pyStripS (s : String) : String := String.mk (pyStrip s.data)

/-- Embeds `clean_price` of `offline_listing_parser.py` lines 16-20:
match digits-with-separators followed by `TL`, drop spaces, commas to
dots, append `" TL"`; otherwise return the stripped input. -/
def clean_price_v1 (txt : String) : String :=
  if txt = "" then "" else
  match searchPriceV1 txt.data with
  | some g => String.mk ((g.filter (fun c => c ≠ ' ')).map dotC) ++ " TL"
  | none => pyStripS txt

/-- Embeds `parse_location_from_h2` of `offline_listing_parser.py` lines
26-32: split on `/`, strip parts, drop empties, first three parts. -/
def parse_location_from_h2 (h2 : String) : String × String × String :=
  let parts := ((h2.splitOn "/").map pyStripS).filter (fun p => p ≠ "")
  ((parts.get? 0).getD "", (parts.get? 1).getD "", (parts.get? 2).getD "")

/-- Embeds the field-merge of `parse_offline_listing` in
`offline_listing_parser.py` lines 86-109: each field takes the
structured-state value when truthy, else the heuristic fallback (the h2
location fallback runs only when the structured city is empty; phone has
no heuristic fallback). -/
def mergeOffline (c : Classified) (h : HeurDoc) : OffRecord :=
  let title := pyOrS c.title h.h1Text
  let price :=
    if c.priceFormatted = "" then clean_price_v1 h.priceText
    else c.priceFormatted
  let trip :=
    if c.cityName = "" then
      let p := parse_location_from_h2 h.h2Text
      (pyOrS c.cityName p.1, pyOrS c.townName p.2.1,
        pyOrS c.quarterName p.2.2)
    else (c.cityName, c.townName, c.quarterName)
  { title := title
    price := price
    city := trip.1
    district := trip.2.1
    neighborhood := trip.2.2
    description := pyOrS c.description h.descText
    owner := pyOrS c.userName h.userText
    phone := c.userPhone }

/-- Embeds the field resolution of `parse_offline_listing` in
`offline_listing_parser_final.py` lines 70-77: title and description
fall back to selector text, every other one of these fields comes from
the structured state alone. -/
def mergeFinal (c : Classified) (h : HeurDoc) : OffRecord :=
  { title := pyOrS (pyOrS c.title h.h1Text) "ilan"
    price := c.priceFormatted
    city := c.cityName
    district := c.townName
    neighborhood := c.quarterName
    description := pyOrS c.description h.descText
    owner := c.userName
    phone := c.userPhone }

/-- Concrete structured-state values for the C1 witness. -/
def cWit : Classified :=
  { title := "Güzel Daire"
    cityName := "Tekirdağ"
    townName := "Süleymanpaşa"
    quarterName := "Hürriyet Mah."
    priceFormatted := "1.250.000 TL"
    description := "Ferah ve aydınlık."
    userName := "Ayşe"
    userPhone := "0 (553) 646 16 31" }

/-- Concrete disagreeing heuristic values for the C1 witness. -/
def hWit : HeurDoc :=
  { h1Text := "Başka Başlık"
    priceText := "999 TL"
    h2Text := "İstanbul / Kadıköy / Moda Mah."
    descText := "Başka açıklama."
    userText := "Mehmet" }

/-- A string in the canonical grouped phone shape `D (DDD) DDD DD DD`. -/
def canonForm (t : String) : Prop :=
  ∃ a b c d e f g h i j k : Char,
    (a.isDigit ∧ b.isDigit ∧ c.isDigit ∧ d.isDigit ∧ e.isDigit ∧
      f.isDigit ∧ g.isDigit ∧ h.isDigit ∧ i.isDigit ∧ j.isDigit ∧
      k.isDigit) ∧
    t = String.mk [a, ' ', '(', b, c, d, ')', ' ', e, f, g, ' ', h, i, ' ', j, k]

theorem dlookup_dinsert (m : List (String × String)) (k v k' : String) :
    dlookup (dinsert m k v) k' = if k' = k then some v else dlookup m k' := by
  induction m with
  | nil =>
    by_cases h : k' = k
    · simp [dinsert, dlookup, h]
    · simp [dinsert, dlookup, h, Ne.symm h]
  | cons p rest ih =>
    obtain ⟨a, b⟩ := p
    by_cases h1 : a = k
    · subst h1
      by_cases h2 : k' = a
      · simp [dinsert, dlookup, h2]
      · simp [dinsert, dlookup, h2, Ne.symm h2]
    · by_cases h2 : k' = k
      · subst h2
        simp [dinsert, dlookup, h1, ih]
      · simp [dinsert, dlookup, h1, h2, ih]

theorem dlookup_foldl_dinsert (rows : List (String × String))
    (m : List (String × String)) (k : String) :
    dlookup (rows.foldl (fun m p => dinsert m p.1 p.2) m) k =
      lastAcc rows k (dlookup m k) := by
  induction rows generalizing m with
  | nil => rfl
  | cons p rest ih =>
    simp only [List.foldl_cons, lastAcc, ih, dlookup_dinsert]
    by_cases h : p.1 = k
    · simp [lastAcc, h]
    · simp [lastAcc, h, Ne.symm h]

theorem foldl_guarded_keep (li : List (String × String))
    (m0 : List (String × String)) :
    li.foldl (fun m p => if p.1 ≠ "" then dinsert m p.1 p.2 else m) m0 =
      (keepLabeled li).foldl (fun m p => dinsert m p.1 p.2) m0 := by
  induction li generalizing m0 with
  | nil => rfl
  | cons p rest ih =>
    by_cases h : p.1 ≠ ""
    · rw [List.foldl_cons, if_pos h, keepLabeled, if_pos h, List.foldl_cons]
      exact ih (dinsert m0 p.1 p.2)
    · rw [List.foldl_cons, if_neg h, keepLabeled, if_neg h]
      exact ih m0

theorem findState_empty : findState "" = none := rfl

theorem dedupGo_sublist (l : List String) :
    ∀ seen, List.Sublist (dedupGo seen l) l := by
  induction l with
  | nil => intro seen; simp [dedupGo]
  | cons x r ih =>
    intro seen
    by_cases h : x ∈ seen
    · simp only [dedupGo, if_pos h]
      exact List.Sublist.cons x (ih seen)
    · simp only [dedupGo, if_neg h]
      exact List.Sublist.cons₂ x (ih (x :: seen))

theorem dedupGo_mem_not_seen (l : List String) :
    ∀ seen x, x ∈ dedupGo seen l → x ∉ seen := by
  induction l with
  | nil => intro seen x hx; simp [dedupGo] at hx
  | cons y r ih =>
    intro seen x hx
    by_cases h : y ∈ seen
    · exact ih seen x (by simpa [dedupGo, if_pos h] using hx)
    · simp only [dedupGo, if_neg h, List.mem_cons] at hx
      rcases hx with rfl | hx
      · exact h
      · intro hs
        exact ih (y :: seen) x hx (List.mem_cons_of_mem _ hs)

theorem dedupGo_nodup (l : List String) :
    ∀ seen, (dedupGo seen l).Nodup := by
  induction l with
  | nil => intro seen; simp [dedupGo]
  | cons y r ih =>
    intro seen
    by_cases h : y ∈ seen
    · simpa [dedupGo, if_pos h] using ih seen
    · simp only [dedupGo, if_neg h, List.nodup_cons]
      refine ⟨fun hy => ?_, ih (y :: seen)⟩
      exact dedupGo_mem_not_seen r (y :: seen) y hy (List.mem_cons_self y seen)

theorem canon_fix (a b c d e f g h i j k : Char)
    (ha : a.isDigit = true) (hb : b.isDigit = true) (hc : c.isDigit = true)
    (hd : d.isDigit = true) (he : e.isDigit = true) (hf : f.isDigit = true)
    (hg : g.isDigit = true) (hh : h.isDigit = true) (hi : i.isDigit = true)
    (hj : j.isDigit = true) (hk : k.isDigit = true) :
    format_phone_digits
        (String.mk [a, ' ', '(', b, c, d, ')', ' ', e, f, g, ' ', h, i, ' ', j, k]) =
      String.mk [a, ' ', '(', b, c, d, ')', ' ', e, f, g, ' ', h, i, ' ', j, k] := by
  have hsp : Char.isDigit ' ' = false := by decide
  have hop : Char.isDigit '(' = false := by decide
  have hcl : Char.isDigit ')' = false := by decide
  have hne :
      String.mk [a, ' ', '(', b, c, d, ')', ' ', e, f, g, ' ', h, i, ' ', j, k] ≠ "" := by
    intro hEq
    have := congrArg String.data hEq
    simp at this
  have hfil :
      (String.mk [a, ' ', '(', b, c, d, ')', ' ', e, f, g, ' ', h, i, ' ', j, k]).data.filter
          Char.isDigit = [a, b, c, d, e, f, g, h, i, j, k] := by
    simp [List.filter_cons, ha, hb, hc, hd, he, hf, hg, hh, hi, hj, hk,
      hsp, hop, hcl]
  unfold format_phone_digits
  rw [if_neg hne]
  simp only [hfil]
  have hc1 : ¬(([a, b, c, d, e, f, g, h, i, j, k] : List Char).length = 10 ∧
      ([a, b, c, d, e, f, g, h, i, j, k] : List Char).head? = some '5') := by
    simp
  simp only [if_neg hc1]
  by_cases hA : a = '0'
  · subst hA
    rfl
  · have hc2 : ¬(11 ≤ ([a, b, c, d, e, f, g, h, i, j, k] : List Char).length ∧
        ([a, b, c, d, e, f, g, h, i, j, k] : List Char).head? = some '0') := by
      rintro ⟨-, h0⟩
      exact hA (by simpa using h0)
    rw [if_neg hc2]

/-- C1: when the structured-state extractor yields a non-empty value for a
field it supplies (title, price, description, city, district,
neighborhood, owner name, phone), the assembled record carries that value
and not the heuristic extractor's, in both the `offline_listing_parser.py`
merge and the `offline_listing_parser_final.py` merge. -/
theorem c1_structured_state_wins (c : Classified) (h : HeurDoc) :
    (c.title ≠ "" → (mergeOffline c h).title = c.title ∧
      (mergeFinal c h).title = c.title) ∧
    (c.priceFormatted ≠ "" → (mergeOffline c h).price = c.priceFormatted) ∧
    (mergeFinal c h).price = c.priceFormatted ∧
    (c.cityName ≠ "" → (mergeOffline c h).city = c.cityName) ∧
    (mergeFinal c h).city = c.cityName ∧
    (c.townName ≠ "" → (mergeOffline c h).district = c.townName) ∧
    (mergeFinal c h).district = c.townName ∧
    (c.quarterName ≠ "" → (mergeOffline c h).neighborhood = c.quarterName) ∧
    (mergeFinal c h).neighborhood = c.quarterName ∧
    (c.description ≠ "" → (mergeOffline c h).description = c.description ∧
      (mergeFinal c h).description = c.description) ∧
    (c.userName ≠ "" → (mergeOffline c h).owner = c.userName) ∧
    (mergeFinal c h).owner = c.userName ∧
    (mergeOffline c h).phone = c.userPhone ∧
    (mergeFinal c h).phone = c.userPhone := by
  refine ⟨?_, ?_, rfl, ?_, rfl, ?_, rfl, ?_, rfl, ?_, ?_, rfl, rfl, rfl⟩
  · intro hx; exact ⟨by simp [mergeOffline, pyOrS, hx],
      by simp [mergeFinal, pyOrS, hx]⟩
  · intro hx; simp [mergeOffline, hx]
  · intro hx; simp [mergeOffline, hx]
  · intro hx
    by_cases hcity : c.cityName = "" <;>
      simp [mergeOffline, pyOrS, hx, hcity]
  · intro hx
    by_cases hcity : c.cityName = "" <;>
      simp [mergeOffline, pyOrS, hx, hcity]
  · intro hx; exact ⟨by simp [mergeOffline, pyOrS, hx],
      by simp [mergeFinal, pyOrS, hx]⟩
  · intro hx; simp [mergeOffline, pyOrS, hx]

/-- C1 witness: at concrete disagreeing sources, every one of the eight
fields of both assembled records carries the structured-state value. -/
theorem c1_witness :
    (mergeOffline cWit hWit).title = cWit.title ∧
    (mergeFinal cWit hWit).title = cWit.title ∧
    (mergeOffline cWit hWit).price = cWit.priceFormatted ∧
    (mergeFinal cWit hWit).price = cWit.priceFormatted ∧
    (mergeOffline cWit hWit).city = cWit.cityName ∧
    (mergeFinal cWit hWit).city = cWit.cityName ∧
    (mergeOffline cWit hWit).district = cWit.townName ∧
    (mergeFinal cWit hWit).district = cWit.townName ∧
    (mergeOffline cWit hWit).neighborhood = cWit.quarterName ∧
    (mergeFinal cWit hWit).neighborhood = cWit.quarterName ∧
    (mergeOffline cWit hWit).description = cWit.description ∧
    (mergeFinal cWit hWit).description = cWit.description ∧
    (mergeOffline cWit hWit).owner = cWit.userName ∧
    (mergeFinal cWit hWit).owner = cWit.userName ∧
    (mergeOffline cWit hWit).phone = cWit.userPhone ∧
    (mergeFinal cWit hWit).phone = cWit.userPhone := by
  have t := c1_structured_state_wins cWit hWit
  obtain ⟨T, P, PF, C, CF, D, DF, Q, QF, DE, O, OF, PH, PHF⟩ := t
  exact ⟨(T (by decide)).1, (T (by decide)).2, P (by decide), PF,
    C (by decide), CF, D (by decide), DF, Q (by decide), QF,
    (DE (by decide)).1, (DE (by decide)).2, O (by decide), OF, PH, PHF⟩

/-- C2: the phone canonicalizer behaves exactly as the claim describes
(sentinel on empty input; digit stripping; `0`-prepending for ten digits
starting `5`; grouped formatting for eleven-plus digits starting `0`; the
raw input otherwise), and maps both `05536461631` and `5536461631` to
`0 (553) 646 16 31`. -/
theorem c2_phone_canonicalizer :
    (∀ s, format_phone_digits s = phone_claim s) ∧
    format_phone_digits "05536461631" = "0 (553) 646 16 31" ∧
    format_phone_digits "5536461631" = "0 (553) 646 16 31" :=
  ⟨fun _ => rfl, by decide, by decide⟩

/-- C3: the price canonicalizer behaves exactly as the claim describes
(sentinel on empty input; whitespace collapse; truncation at a
case-insensitive `Fiyat`; leading numeric run with comma-to-dot
conversion and appended `" TL"`; sentinel when no run is found), and maps
the price-history example to `1.250.000 TL`. -/
theorem c3_price_canonicalizer :
    (∀ s, clean_price s = price_claim s) ∧
    clean_price "1.250.000 TL Fiyat Tarihçesi: ..." = "1.250.000 TL" :=
  ⟨fun _ => rfl, by decide⟩

/-- C4 counterexample: two list-item rows with the same label capture the
later row's value, and so does a table row following a list-item row with
the same label — the earlier value is overridden. -/
theorem c4_counterexample :
    dlookup (extract_attrs [("Oda Sayısı", "2+1"), ("Oda Sayısı", "3+1")] [])
        "Oda Sayısı" = some "3+1" ∧
    dlookup (extract_attrs [("Oda Sayısı", "2+1"), ("Oda Sayısı", "3+1")] [])
        "Oda Sayısı" ≠ some "2+1" ∧
    dlookup (extract_attrs [("Isıtma", "Kombi")] [("Isıtma", "Soba")])
        "Isıtma" = some "Soba" := by
  refine ⟨by decide, by decide, by decide⟩

/-- C4 amended: for every label, the value captured by the attribute-table
builder is the one of the textually last row carrying that label among the
(label-non-empty) list-item rows followed by the table rows — later rows
override earlier ones. -/
theorem c4_last_writer_wins (li tab : List (String × String)) (k : String) :
    dlookup (extract_attrs li tab) k =
      lastAcc (keepLabeled li ++ tab) k none := by
  simp only [extract_attrs, foldl_guarded_keep, dlookup_foldl_dinsert]
  have hnil : dlookup [] k = none := rfl
  simp [lastAcc, List.foldl_append, hnil]

/-- C5: on a document with no `İl`/`İlçe`/`Mahalle` attribute rows, the
breadcrumb texts `Home, Real Estate, Housing, For Sale, CityX, DistrictY,
NeighborhoodZ` resolve to city `CityX`, district `DistrictY`,
neighborhood `NeighborhoodZ`. -/
theorem c5_breadcrumb_location (attrs : List (String × String))
    (h1 : dlookup attrs "İl" = none) (h2 : dlookup attrs "İlçe" = none)
    (h3 : dlookup attrs "Mahalle" = none) :
    extract_location attrs
        ["Home", "Real Estate", "Housing", "For Sale", "CityX", "DistrictY",
          "NeighborhoodZ"] =
      ("CityX", "DistrictY", "NeighborhoodZ") := by
  simp only [extract_location, h1, h2, h3]
  decide

/-- C5 witness: the location resolution at the empty attribute table. -/
theorem c5_witness :
    extract_location []
        ["Home", "Real Estate", "Housing", "For Sale", "CityX", "DistrictY",
          "NeighborhoodZ"] =
      ("CityX", "DistrictY", "NeighborhoodZ") :=
  c5_breadcrumb_location [] rfl rfl rfl

/-- C6: the structured-state extractor is a total function returning, for
any parser and any script list, the parsed object of the first script
whose captured `window.__INITIAL_STATE__` literal parses, skipping
scripts without a match or whose literal fails to parse, and the empty
mapping when no script qualifies. -/
theorem c6_json_state_first_parse (α : Type) (parse : String → Option α)
    (empty : α) (scripts : List String) :
    extract_json_state parse empty scripts =
      (scripts.filterMap (fun t => (findState t).bind parse)).headD empty := by
  induction scripts with
  | nil => rfl
  | cons t rest ih =>
    by_cases ht : t = ""
    · subst ht
      simp [extract_json_state, List.filterMap_cons, findState_empty, ih]
    · cases hf : findState t with
      | none => simp [extract_json_state, ht, hf, List.filterMap_cons, ih]
      | some lit =>
        cases hp : parse lit with
        | none => simp [extract_json_state, ht, hf, hp, List.filterMap_cons, ih]
        | some j => simp [extract_json_state, ht, hf, hp, List.filterMap_cons]

/-- C7: the candidate image list is duplicate-free, preserves the
first-seen order of the filtered image sources (it is a sublist of that
stream), and never exceeds 100 entries. -/
theorem c7_image_candidates (elems : List (Option String × Option String)) :
    (imgCandidates elems).Nodup ∧
    List.Sublist (imgCandidates elems) (filteredImgs elems) ∧
    (imgCandidates elems).length ≤ 100 := by
  refine ⟨?_, ?_, ?_⟩
  · exact List.Nodup.sublist (List.take_sublist 100 _)
      (dedupGo_nodup (filteredImgs elems) [])
  · exact List.Sublist.trans (List.take_sublist 100 _)
      (dedupGo_sublist (filteredImgs elems) [])
  · exact List.length_take_le 100 _

/-- C9: on the digit-free reference `ilan.html` the unguarded
`listing_id` expression of `parser.py` has no value (the source raises
there), while the guarded expression of `app.py` yields the empty string;
on a digit-bearing reference both agree on the first digit run. -/
theorem c9_listing_id_digit_free :
    listing_id_unguarded "ilan.html" = none ∧
    listing_id_app "ilan.html" = "" ∧
    listing_id_app "ilan_123456.html" = "123456" ∧
    listing_id_unguarded "ilan_123456.html" = some "123456" := by
  refine ⟨by decide, by decide, by decide, by decide⟩

/-- C10 counterexample: `Fiyat 100` is non-empty and contains a digit,
yet the price canonicalizer returns the sentinel rather than a
price-shaped string, because the digit lies after the `Fiyat` cut. -/
theorem c10_counterexample :
    ("Fiyat 100" : String) ≠ "" ∧
    ("Fiyat 100" : String).data.any Char.isDigit = true ∧
    clean_price "Fiyat 100" = "Belirtilmemiş" := by
  refine ⟨by decide, by decide, by decide⟩

/-- C10 amended: for every input whose whitespace-collapsed,
`Fiyat`-stripped form still contains a digit, the price canonicalizer
returns the leading numeric run (commas to dots) with `" TL"` appended
unconditionally, whether or not a currency marker was present. -/
theorem c10_digit_bearing_price_shape (s : String) (g : List Char)
    (hg : numRunL (stripFiyat (clean_spaces s)).data = some g) :
    clean_price s = String.mk (g.map dotC) ++ " TL" := by
  have hs : s ≠ "" := by
    intro h
    subst h
    simp [clean_spaces, stripFiyat, stripFiyatL, numRunL] at hg
  simp [clean_price, hs, hg]

/-- C10 witness: the digit-bearing non-price text `2+1` is turned into
the price-shaped `2 TL`. -/
theorem c10_witness :
    numRunL (stripFiyat (clean_spaces "2+1")).data = some ['2'] ∧
    clean_price "2+1" = "2 TL" := by
  refine ⟨by decide, ?_⟩
  have := c10_digit_bearing_price_shape "2+1" ['2'] (by decide)
  simpa using this

/-- C8: phone canonicalization is idempotent on canonical outputs — when
the canonicalizer maps `s` to a string in the grouped form
`D (DDD) DDD DD DD`, applying it to that output returns it unchanged. -/
theorem c8_phone_idempotent_on_canonical (s : String)
    (h : canonForm (format_phone_digits s)) :
    format_phone_digits (format_phone_digits s) = format_phone_digits s := by
  obtain ⟨a, b, c, d, e, f, g, h1, i, j, k, hds, ht⟩ := h
  obtain ⟨ha, hb, hc, hd, he, hf, hg, hh, hi, hj, hk⟩ := hds
  rw [ht]
  exact canon_fix a b c d e f g h1 i j k ha hb hc hd he hf hg hh hi hj hk

/-- C8 witness: the canonicalizer's output at `05536461631` is canonical
and re-normalizing it returns it unchanged. -/
theorem c8_witness :
    format_phone_digits (format_phone_digits "05536461631") =
      format_phone_digits "05536461631" :=
  c8_phone_idempotent_on_canonical "05536461631"
    ⟨'0', '5', '5', '3', '6', '4', '6', '1', '6', '3', '1', by decide, by decide⟩

end Scraper
